import Mathlib

/-!
Verification of the RCG (root clock generator) driver logic from
drivers/clk/qcom/clk-rcg2.c, as a shallow embedding.

Modelling conventions:
- `unsigned long` is modelled at 64 bits (LP64); `u32` quantities carry an
  explicit `% 2^32` or a 32-bit mask where C truncation matters.
- Register access goes through a small machine model `Mmio`: a register
  file, an error oracle `fail` (the errno an access returns, indexed by the
  running count of register accesses), and a hardware oracle `hw` telling
  at which accesses the hardware has self-cleared the CMD update bit.
- Successful register writes are logged in a trace, so that claims about
  write order and abort-on-error can be stated.
-/

/- Register offsets and bit layout, from the defines at the top of the C file.
   Offsets are relative to cmd_rcgr. -/

def CMD_REG : Nat := 0

def CMD_UPDATE : Nat := 1

def CMD_ROOT_OFF : Nat := 2 ^ 31

def CFG_REG : Nat := 4

def CFG_SRC_DIV_SHIFT : Nat := 0

def CFG_SRC_SEL_SHIFT : Nat := 8

def CFG_SRC_SEL_MASK : Nat := 7 <<< CFG_SRC_SEL_SHIFT

def CFG_MODE_SHIFT : Nat := 12

def CFG_MODE_MASK : Nat := 3 <<< CFG_MODE_SHIFT

def CFG_MODE_DUAL_EDGE : Nat := 2 <<< CFG_MODE_SHIFT

def M_REG : Nat := 8

def N_REG : Nat := 12

def D_REG : Nat := 16

/-- All-ones mask of a `u32`. -/
def U32MASK : Nat := 2 ^ 32 - 1

/-- Bitwise complement at 32 bits: the C expression `~x` on a `u32`. -/
def compl32 (x : Nat) : Nat := U32MASK ^^^ (x &&& U32MASK)

/-- 32-bit wrapping subtraction, the C expression `a - b` on `u32` operands. -/
def sub32 (a b : Nat) : Nat := (a % 2 ^ 32 + (2 ^ 32 - b % 2 ^ 32)) % 2 ^ 32

/-- One row of the frequency table (struct freq_tbl). -/
structure Freq where
  freq : Nat
  src : Nat
  pre_div : Nat
  m : Nat
  n : Nat
deriving DecidableEq, Repr

/-- The per-device constants of struct clk_rcg2 that the code reads. -/
structure Rcg where
  mnd_width : Nat
  hid_width : Nat
  parent_map : List Nat
  freq_tbl : Option (List Freq)

/-- find_freq, lines 174-185: walk the table until the zero-frequency
sentinel, returning the first entry whose frequency is at least `rate`;
NULL (`none`) for a NULL table or when no entry qualifies. -/
def find_freq_list : List Freq → Nat → Option Freq
  | [], _ => none
  | f :: fs, rate =>
    if f.freq = 0 then none
    else if rate ≤ f.freq then some f
    else find_freq_list fs rate

def find_freq : Option (List Freq) → Nat → Option Freq
  | none, _ => none
  | some l, rate => find_freq_list l rate

/-- calc_rate, lines 129-145.  `rate` is an unsigned long (64-bit here);
the m/n stage goes through a u64 intermediate exactly as in the C. -/
def calc_rate (rate m n mode hid_div : Nat) : Nat :=
  let rate1 := if hid_div ≠ 0 then rate * 2 % 2 ^ 64 / (hid_div + 1) else rate
  if mode ≠ 0 then rate1 * m % 2 ^ 64 / n else rate1

/-- Field extraction used by clk_rcg2_recalc_rate (lines 167-169):
`hid_div = cfg >> CFG_SRC_DIV_SHIFT; hid_div &= BIT(hid_width)-1`. -/
def cfg_hid_div (hid_width cfg : Nat) : Nat :=
  cfg >>> CFG_SRC_DIV_SHIFT &&& (2 ^ hid_width - 1)

/-- Field extraction used by clk_rcg2_get_parent (lines 72-73):
`cfg &= CFG_SRC_SEL_MASK; cfg >>= CFG_SRC_SEL_SHIFT`. -/
def cfg_src_sel (cfg : Nat) : Nat :=
  (cfg &&& CFG_SRC_SEL_MASK) >>> CFG_SRC_SEL_SHIFT

/-- Field extraction used by clk_rcg2_recalc_rate (lines 163-164):
`mode = cfg & CFG_MODE_MASK; mode >>= CFG_MODE_SHIFT`. -/
def cfg_mode (cfg : Nat) : Nat :=
  (cfg &&& CFG_MODE_MASK) >>> CFG_MODE_SHIFT

/- ----------------------------------------------------------------- -/
/- The register-access machine model.                                -/
/- ----------------------------------------------------------------- -/

/-- The five registers the driver touches, addressed relative to cmd_rcgr. -/
structure RegFile where
  cmd : Nat
  cfg : Nat
  mreg : Nat
  nreg : Nat
  dreg : Nat
deriving DecidableEq, Repr

def RegFile.get (r : RegFile) (off : Nat) : Nat :=
  if off = CMD_REG then r.cmd
  else if off = CFG_REG then r.cfg
  else if off = M_REG then r.mreg
  else if off = N_REG then r.nreg
  else if off = D_REG then r.dreg
  else 0

def RegFile.set (r : RegFile) (off v : Nat) : RegFile :=
  if off = CMD_REG then { r with cmd := v }
  else if off = CFG_REG then { r with cfg := v }
  else if off = M_REG then { r with mreg := v }
  else if off = N_REG then { r with nreg := v }
  else if off = D_REG then { r with dreg := v }
  else r

/-- Machine state threaded through every regmap access.
`fail k = some e` means the k-th register access (read or write, counted
from machine start) fails with errno `e` (a bus error); `hw k = true`
means that by the time of access k the hardware has self-cleared the
CMD_UPDATE bit, so a read of the command register observes bit 0 clear.
`writes` is the trace of successful register writes `(offset, mask, value)`
and `warns` counts emitted WARN diagnostics. -/
structure Mmio where
  regs : RegFile
  fail : Nat → Option Int
  hw : Nat → Bool
  idx : Nat
  writes : List (Nat × Nat × Nat)
  warns : Nat

/-- regmap_read: returns the current register value (for the command
register, with the update bit cleared once the hardware oracle says the
update has taken effect).  Reads do not change the register file. -/
def regmap_read (s : Mmio) (off : Nat) : Except Int Nat × Mmio :=
  match s.fail s.idx with
  | some e => (.error e, { s with idx := s.idx + 1 })
  | none =>
    let v0 := s.regs.get off
    let v := if off = CMD_REG && s.hw s.idx then v0 &&& compl32 CMD_UPDATE else v0
    (.ok v, { s with idx := s.idx + 1 })

/-- regmap_update_bits: read-modify-write,
`new = (old & ~mask) | (val & mask)` on u32 operands. -/
def regmap_update_bits (s : Mmio) (off mask val : Nat) : Except Int Unit × Mmio :=
  match s.fail s.idx with
  | some e => (.error e, { s with idx := s.idx + 1 })
  | none =>
    let old := s.regs.get off
    let new := (old &&& compl32 mask) ||| (val &&& (mask &&& U32MASK))
    (.ok (), { s with
                regs := s.regs.set off new
                idx := s.idx + 1
                writes := s.writes ++ [(off, mask, val)] })

/- ----------------------------------------------------------------- -/
/- update_config (lines 82-106) and the introspection ops.           -/
/- ----------------------------------------------------------------- -/

/-- The poll loop of update_config, lines 95-105: up to `count` reads of
the command register; early return 0 as soon as the update bit is seen
clear; on a read error return that error; if the bound is exhausted,
WARN once and still return 0. -/
def update_poll (s : Mmio) : Nat → Int × Mmio
  | 0 => (0, { s with warns := s.warns + 1 })
  | count + 1 =>
    match regmap_read s CMD_REG with
    | (.error e, s1) => (e, s1)
    | (.ok cmd, s1) =>
      if cmd &&& CMD_UPDATE = 0 then (0, s1) else update_poll s1 count

/-- update_config, lines 82-106: set the update bit (errors propagate),
then poll up to 500 times. -/
def update_config (s : Mmio) : Int × Mmio :=
  match regmap_update_bits s CMD_REG CMD_UPDATE CMD_UPDATE with
  | (.error e, s1) => (e, s1)
  | (.ok _, s1) => update_poll s1 500

/-- clk_rcg2_is_enabled, lines 48-59: read the command register
(propagating a read error) and return the C expression
`(cmd & CMD_ROOT_OFF) != 0` (1 or 0). -/
def clk_rcg2_is_enabled (s : Mmio) : Int × Mmio :=
  match regmap_read s CMD_REG with
  | (.error e, s1) => (e, s1)
  | (.ok cmd, s1) => (if cmd &&& CMD_ROOT_OFF ≠ 0 then 1 else 0, s1)

/-- The linear scan of clk_rcg2_get_parent, lines 75-77:
`for (i = 0; i < num_parents; i++) if (cfg == parent_map[i]) return i`.
`rem` counts the remaining iterations, `i` is the loop index. -/
def parent_scan (pm : Nat → Nat) (sel : Nat) : Nat → Nat → Option Nat
  | 0, _ => none
  | rem + 1, i => if pm i = sel then some i else parent_scan pm sel rem (i + 1)

/-- clk_rcg2_get_parent, lines 61-80.  The C function returns u8, so both
a loop index and the -EINVAL / errno returns are truncated to 8 bits. -/
def clk_rcg2_get_parent (num_parents : Nat) (pm : Nat → Nat) (s : Mmio) :
    Nat × Mmio :=
  match regmap_read s CFG_REG with
  | (.error e, s1) => ((e.emod 256).toNat, s1)
  | (.ok cfg, s1) =>
    match parent_scan pm (cfg_src_sel cfg) num_parents 0 with
    | some i => (i % 256, s1)
    | none => (((-22 : Int).emod 256).toNat, s1)

/- ----------------------------------------------------------------- -/
/- Rate programming: __clk_rcg2_set_rate (lines 227-268) and the     -/
/- two public entry points (lines 270-280).                          -/
/- ----------------------------------------------------------------- -/

/-- The M/N/D programming block, lines 238-254: three masked writes, in
the order M, N, D, each aborting the sequence on error. -/
def set_rate_mnd (mask : Nat) (f : Freq) (s : Mmio) : Except Int Unit × Mmio :=
  match regmap_update_bits s M_REG mask f.m with
  | (.error e, s1) => (.error e, s1)
  | (.ok _, s1) =>
    match regmap_update_bits s1 N_REG mask (compl32 (sub32 f.n f.m)) with
    | (.error e, s2) => (.error e, s2)
    | (.ok _, s2) => regmap_update_bits s2 D_REG mask (compl32 f.n)

/-- The config write and commit, lines 256-267: combine divider,
parent-select and (in fractional mode) the dual-edge marker, write them
under the union mask, then run update_config. -/
def set_rate_cfg (rcg : Rcg) (f : Freq) (s : Mmio) : Int × Mmio :=
  let mask := (2 ^ rcg.hid_width - 1) ||| CFG_SRC_SEL_MASK ||| CFG_MODE_MASK
  let cfg := f.pre_div <<< CFG_SRC_DIV_SHIFT |||
             rcg.parent_map.getD f.src 0 <<< CFG_SRC_SEL_SHIFT |||
             (if rcg.mnd_width ≠ 0 ∧ f.n ≠ 0 then CFG_MODE_DUAL_EDGE else 0)
  match regmap_update_bits s CFG_REG mask cfg with
  | (.error e, s1) => (e, s1)
  | (.ok _, s1) => update_config s1

/-- __clk_rcg2_set_rate, lines 227-268: table lookup (-EINVAL = -22 when
it fails, with no register access at all), then the M/N/D block when
`mnd_width` is nonzero and the entry requests fractional mode, then the
config write and commit. -/
def __clk_rcg2_set_rate (rcg : Rcg) (rate : Nat) (s : Mmio) : Int × Mmio :=
  match find_freq rcg.freq_tbl rate with
  | none => (-22, s)
  | some f =>
    if rcg.mnd_width ≠ 0 ∧ f.n ≠ 0 then
      match set_rate_mnd (2 ^ rcg.mnd_width - 1) f s with
      | (.error e, s1) => (e, s1)
      | (.ok _, s1) => set_rate_cfg rcg f s1
    else set_rate_cfg rcg f s

/-- clk_rcg2_set_rate, lines 270-274: ignores parent_rate. -/
def clk_rcg2_set_rate (rcg : Rcg) (rate parent_rate : Nat) (s : Mmio) :
    Int × Mmio :=
  __clk_rcg2_set_rate rcg rate s

/-- clk_rcg2_set_rate_and_parent, lines 276-280: ignores parent_rate and
the parent index. -/
def clk_rcg2_set_rate_and_parent (rcg : Rcg) (rate parent_rate index : Nat)
    (s : Mmio) : Int × Mmio :=
  __clk_rcg2_set_rate rcg rate s

/- ----------------------------------------------------------------- -/
/- Rate negotiation: _freq_tbl_determine_rate (lines 187-217).       -/
/- ----------------------------------------------------------------- -/

/-- _freq_tbl_determine_rate, lines 187-217.  `set_rate_parent` models
the CLK_SET_RATE_PARENT caller-policy flag; `parent_rate i` models
`__clk_get_rate(clk_get_parent_by_index(hw->clk, i))`.  Returns the
entry frequency, the parent rate to request, and the parent source
index, or -EINVAL when the lookup fails. -/
def _freq_tbl_determine_rate (tbl : Option (List Freq)) (rate : Nat)
    (set_rate_parent : Bool) (parent_rate : Nat → Nat) :
    Except Int (Nat × Nat × Nat) :=
  match find_freq tbl rate with
  | none => .error (-22)
  | some f =>
    let prate :=
      if set_rate_parent then
        let r1 := if f.pre_div ≠ 0 then rate / 2 * (f.pre_div + 1) % 2 ^ 64 else rate
        if f.n ≠ 0 then r1 * f.n % 2 ^ 64 / f.m else r1
      else parent_rate f.src
    .ok (f.freq, prate, f.src)

/-- clk_rcg2_determine_rate, lines 219-225: delegates to
_freq_tbl_determine_rate on the device frequency table. -/
def clk_rcg2_determine_rate (rcg : Rcg) (rate : Nat) (set_rate_parent : Bool)
    (parent_rate : Nat → Nat) : Except Int (Nat × Nat × Nat) :=
  _freq_tbl_determine_rate rcg.freq_tbl rate set_rate_parent parent_rate

/- ----------------------------------------------------------------- -/
/- Helper lemmas about find_freq.                                    -/
/- ----------------------------------------------------------------- -/

theorem find_freq_list_sound {l : List Freq} {R : Nat} {E : Freq}
    (h : find_freq_list l R = some E) :
    R ≤ E.freq ∧ E.freq ≠ 0 ∧
      ∃ l₁ l₂, l = l₁ ++ E :: l₂ ∧ ∀ e ∈ l₁, e.freq ≠ 0 ∧ e.freq < R := by
  induction l with
  | nil => simp [find_freq_list] at h
  | cons f fs ih =>
    by_cases h0 : f.freq = 0
    · simp [find_freq_list, h0] at h
    · by_cases hle : R ≤ f.freq
      · have hE : f = E := by
          simpa [find_freq_list, h0, hle] using h
        subst hE
        exact ⟨hle, h0, [], fs, rfl, by simp⟩
      · have h2 : find_freq_list fs R = some E := by
          simpa [find_freq_list, h0, hle] using h
        obtain ⟨hle2, hne, l₁, l₂, heq, hall⟩ := ih h2
        refine ⟨hle2, hne, f :: l₁, l₂, by simp [heq], ?_⟩
        intro e he
        rcases List.mem_cons.mp he with he | he
        · subst he; exact ⟨h0, Nat.lt_of_not_le hle⟩
        · exact hall e he

theorem find_freq_list_none {l : List Freq} {R : Nat}
    (h : ∀ e ∈ l.takeWhile (fun f => f.freq != 0), e.freq < R) :
    find_freq_list l R = none := by
  induction l with
  | nil => rfl
  | cons f fs ih =>
    by_cases h0 : f.freq = 0
    · simp [find_freq_list, h0]
    · have htw : List.takeWhile (fun g : Freq => g.freq != 0) (f :: fs)
          = f :: List.takeWhile (fun g : Freq => g.freq != 0) fs :=
        List.takeWhile_cons_of_pos (by simp [h0])
      rw [htw] at h
      have hf : f.freq < R := h f (List.mem_cons_self f _)
      have hfs : ∀ e ∈ fs.takeWhile (fun g => g.freq != 0), e.freq < R :=
        fun e he => h e (List.mem_cons_of_mem f he)
      simp [find_freq_list, h0, Nat.not_le.mpr hf, ih hfs]

/-- C1: if find_freq returns an entry E, then E.freq is at least the
requested rate, every entry preceding E in the table has frequency
strictly below the requested rate, and E is not the zero-frequency
sentinel; for an absent table, or when every entry before the sentinel
is below the requested rate, find_freq reports NULL. -/
theorem C1_find_freq_first_fit (T : Option (List Freq)) (R : Nat) :
    (∀ E, find_freq T R = some E →
      R ≤ E.freq ∧ E.freq ≠ 0 ∧
        ∃ l₁ l₂, T = some (l₁ ++ E :: l₂) ∧ ∀ e ∈ l₁, e.freq ≠ 0 ∧ e.freq < R) ∧
    find_freq none R = none ∧
    (∀ l, (∀ e ∈ l.takeWhile (fun f => f.freq != 0), e.freq < R) →
      find_freq (some l) R = none) := by
  refine ⟨?_, rfl, ?_⟩
  · intro E hE
    match T with
    | none => simp [find_freq] at hE
    | some l =>
      obtain ⟨h1, h2, l₁, l₂, heq, hall⟩ := find_freq_list_sound (l := l) hE
      exact ⟨h1, h2, l₁, l₂, by rw [heq], hall⟩
  · intro l hl
    exact find_freq_list_none hl

theorem C1_witness :
    10000000 ≤ (Freq.mk 19200000 0 0 0 0).freq ∧
      (Freq.mk 19200000 0 0 0 0).freq ≠ 0 := by
  have h := (C1_find_freq_first_fit
      (some [Freq.mk 19200000 0 0 0 0, Freq.mk 0 0 0 0 0]) 10000000).1
      (Freq.mk 19200000 0 0 0 0) rfl
  exact ⟨h.1, h.2.1⟩

/-- C2: calc_rate applies the pre-divider stage
`rate * 2 / (hid_div + 1)` (truncating, on the 64-bit unsigned long)
when hid_div is nonzero, then the `* m / n` stage through a 64-bit
intermediate when mode is nonzero; with hid_div = 0 and mode = 0 the
parent rate passes through unchanged; and on the documented scenario
(parent 800000000, m = 1, n = 2, dual-edge, pre-divider 3) it yields
200000000. -/
theorem C2_calc_rate_formula :
    (∀ p m n, calc_rate p m n 0 0 = p) ∧
    (∀ p m n mode hid_div, hid_div ≠ 0 → mode = 0 →
      calc_rate p m n mode hid_div = p * 2 % 2 ^ 64 / (hid_div + 1)) ∧
    (∀ p m n mode hid_div, hid_div ≠ 0 → mode ≠ 0 →
      calc_rate p m n mode hid_div =
        p * 2 % 2 ^ 64 / (hid_div + 1) * m % 2 ^ 64 / n) ∧
    (∀ p m n mode, mode ≠ 0 → calc_rate p m n mode 0 = p * m % 2 ^ 64 / n) ∧
    calc_rate 800000000 1 2 2 3 = 200000000 := by
  refine ⟨?_, ?_, ?_, ?_, by decide⟩
  · intro p m n; simp [calc_rate]
  · intro p m n mode hid_div h1 h2; simp [calc_rate, h1, h2]
  · intro p m n mode hid_div h1 h2; simp [calc_rate, h1, h2]
  · intro p m n mode h; simp [calc_rate, h]

theorem C2_witness : calc_rate 320 9 10 0 3 = 160 := by
  have h := C2_calc_rate_formula.2.1 320 9 10 0 3 (by decide) rfl
  exact h.trans (by decide)

/-- C4 (code bug): clk_rcg2_is_enabled returns the C truth value of
`(cmd & CMD_ROOT_OFF) != 0`, so it reports 1 (enabled) exactly when the
root-off bit is SET, the inverse of the specified behaviour; a read
error is propagated unchanged. -/
theorem C4_is_enabled_inverted :
    (clk_rcg2_is_enabled
        ⟨⟨CMD_ROOT_OFF, 0, 0, 0, 0⟩, fun _ => none, fun _ => false, 0, [], 0⟩).1
      = 1 ∧
    (clk_rcg2_is_enabled
        ⟨⟨0, 0, 0, 0, 0⟩, fun _ => none, fun _ => false, 0, [], 0⟩).1 = 0 ∧
    (clk_rcg2_is_enabled
        ⟨⟨0, 0, 0, 0, 0⟩, fun _ => some (-5), fun _ => false, 0, [], 0⟩).1
      = -5 := by
  refine ⟨?_, ?_, ?_⟩ <;>
    simp [clk_rcg2_is_enabled, regmap_read, RegFile.get, CMD_ROOT_OFF, CMD_REG]

/-- C7: when the table lookup fails (requested rate above every table
entry, or absent table), __clk_rcg2_set_rate returns -EINVAL and the
machine state is untouched: no register write, no access at all. -/
theorem C7_no_match_no_write (rcg : Rcg) (rate : Nat) (s : Mmio)
    (h : find_freq rcg.freq_tbl rate = none) :
    __clk_rcg2_set_rate rcg rate s = (-22, s) := by
  simp [__clk_rcg2_set_rate, h]

theorem C7_witness :
    __clk_rcg2_set_rate
        ⟨8, 5, [0], some [Freq.mk 19200000 0 0 0 0, Freq.mk 0 0 0 0 0]⟩
        50000000
        ⟨⟨0, 0, 0, 0, 0⟩, fun _ => none, fun _ => false, 0, [], 0⟩
      = (-22, ⟨⟨0, 0, 0, 0, 0⟩, fun _ => none, fun _ => false, 0, [], 0⟩) :=
  C7_no_match_no_write _ _ _ rfl

/-- C10: clk_rcg2_set_rate and clk_rcg2_set_rate_and_parent both reduce
to __clk_rcg2_set_rate on the rate alone, ignoring the supplied parent
rate and parent index: for all arguments they perform the same register
operations and return the same result. -/
theorem C10_set_rate_paths_equal (rcg : Rcg) (rate p p2 i : Nat) (s : Mmio) :
    clk_rcg2_set_rate rcg rate p s = __clk_rcg2_set_rate rcg rate s ∧
    clk_rcg2_set_rate_and_parent rcg rate p2 i s = __clk_rcg2_set_rate rcg rate s ∧
    clk_rcg2_set_rate rcg rate p s = clk_rcg2_set_rate_and_parent rcg rate p2 i s :=
  ⟨rfl, rfl, rfl⟩

/- ----------------------------------------------------------------- -/
/- Bitwise helper lemmas.                                            -/
/- ----------------------------------------------------------------- -/

theorem land_lor_right (a b c : Nat) :
    (a ||| b) &&& c = a &&& c ||| b &&& c := by
  rw [Nat.and_comm, Nat.and_or_distrib_left, Nat.and_comm c a, Nat.and_comm c b]

theorem shiftLeft_land_shiftLeft (a b k : Nat) :
    a <<< k &&& b <<< k = (a &&& b) <<< k := by
  apply Nat.eq_of_testBit_eq
  intro i
  simp only [Nat.testBit_land, Nat.testBit_shiftLeft]
  cases h : decide (k ≤ i) <;> simp

/-- If every set bit of `x` is a set bit of `m` and `x` is a u32 value,
then the 32-bit complement of `m` masks `x` out completely. -/
theorem compl32_and_eq_zero {m x : Nat} (hx : x < 2 ^ 32) (hmx : m &&& x = x) :
    compl32 m &&& x = 0 := by
  have h1 : U32MASK &&& x = x := by
    rw [Nat.and_comm]
    exact Nat.and_pow_two_sub_one_of_lt_two_pow hx
  calc compl32 m &&& x
      = U32MASK &&& x ^^^ (m &&& U32MASK) &&& x := Nat.and_xor_distrib_right
    _ = x ^^^ x := by rw [h1, Nat.and_assoc, h1, hmx]
    _ = 0 := Nat.xor_self x

/-- A value below `2 ^ n` is disjoint from any mask disjoint from
`2 ^ n - 1`. -/
theorem and_eq_zero_of_lt {a c : Nat} (n : Nat) (ha : a < 2 ^ n)
    (hc : 2 ^ n - 1 &&& c = 0) : a &&& c = 0 := by
  rw [← Nat.and_pow_two_sub_one_of_lt_two_pow ha, Nat.and_assoc, hc, Nat.and_zero]

/-- The update bit is set right after the read-modify-write that sets it. -/
theorem or_one_and_one (x : Nat) : (x ||| 1) &&& 1 = 1 := by
  have h : (x ||| 1).testBit 0 = true := by
    simp [Nat.testBit_lor]
  rw [Nat.testBit_zero] at h
  rw [Nat.and_one_is_mod]
  exact of_decide_eq_true h

/-- A command value with the update bit masked out has it clear. -/
theorem compl_update_and_update (x : Nat) :
    x &&& compl32 CMD_UPDATE &&& CMD_UPDATE = 0 := by
  rw [Nat.and_assoc]
  have h : compl32 CMD_UPDATE &&& CMD_UPDATE = 0 := by decide
  rw [h, Nat.and_zero]

/- ----------------------------------------------------------------- -/
/- Machine lemmas about the poll loop.                               -/
/- ----------------------------------------------------------------- -/

theorem update_poll_regs : ∀ (count : Nat) (s : Mmio),
    (update_poll s count).2.regs = s.regs ∧
      (update_poll s count).2.writes = s.writes := by
  intro count
  induction count with
  | zero => intro s; exact ⟨rfl, rfl⟩
  | succ c ih =>
    intro s
    simp only [update_poll, regmap_read]
    match hfk : s.fail s.idx with
    | some e => simp
    | none =>
      simp only
      split <;> split
      all_goals first | simp | exact ih _

theorem update_poll_idx_le : ∀ (count : Nat) (s : Mmio),
    (update_poll s count).2.idx ≤ s.idx + count := by
  intro count
  induction count with
  | zero => intro s; exact Nat.le_refl _
  | succ c ih =>
    intro s
    simp only [update_poll, regmap_read]
    match hfk : s.fail s.idx with
    | some e => simp
    | none =>
      simp only
      have h2 : (update_poll { s with idx := s.idx + 1 } c).2.idx ≤ s.idx + 1 + c :=
        ih _
      split <;> split
      all_goals first | omega | (simp; try omega)

theorem update_poll_ok : ∀ (count : Nat) (s : Mmio),
    (∀ k, s.fail k = none) → (update_poll s count).1 = 0 := by
  intro count
  induction count with
  | zero => intro s _; rfl
  | succ c ih =>
    intro s hok
    simp only [update_poll, regmap_read, hok s.idx]
    split <;> split
    all_goals first | rfl | exact ih _ hok

theorem update_poll_early : ∀ (j count : Nat) (s : Mmio), j < count →
    (∀ k, k < j → s.fail (s.idx + k) = none ∧ s.hw (s.idx + k) = false) →
    s.fail (s.idx + j) = none → s.hw (s.idx + j) = true →
    s.regs.get CMD_REG &&& CMD_UPDATE ≠ 0 →
    update_poll s count = (0, { s with idx := s.idx + j + 1 }) := by
  intro j
  induction j with
  | zero =>
    intro count s hjc hpre hfj hwj hbit
    match count, hjc with
    | c + 1, _ =>
      rw [Nat.add_zero] at hfj hwj
      simp only [update_poll, regmap_read, hfj, hwj]
      simp [compl_update_and_update]
  | succ j ih =>
    intro count s hjc hpre hfj hwj hbit
    match count, hjc with
    | c + 1, hjc =>
      have h0 := hpre 0 (Nat.succ_pos j)
      rw [Nat.add_zero] at h0
      simp only [update_poll, regmap_read, h0.1, h0.2]
      have hrec := ih c { s with idx := s.idx + 1 }
          (Nat.lt_of_succ_lt_succ hjc)
          (fun k hk => by
            have := hpre (k + 1) (Nat.succ_lt_succ hk)
            simpa [Nat.add_assoc, Nat.add_comm, Nat.add_left_comm] using this)
          (by simpa [Nat.add_assoc, Nat.add_comm, Nat.add_left_comm] using hfj)
          (by simpa [Nat.add_assoc, Nat.add_comm, Nat.add_left_comm] using hwj)
          hbit
      simp only [Bool.and_true, Bool.and_false]
      rw [if_neg (by simpa using hbit)]
      rw [hrec]
      simp [Nat.add_assoc, Nat.add_comm, Nat.add_left_comm]

theorem update_poll_exhaust : ∀ (count : Nat) (s : Mmio),
    (∀ k, k < count → s.fail (s.idx + k) = none ∧ s.hw (s.idx + k) = false) →
    s.regs.get CMD_REG &&& CMD_UPDATE ≠ 0 →
    update_poll s count =
      (0, { s with idx := s.idx + count, warns := s.warns + 1 }) := by
  intro count
  induction count with
  | zero => intro s _ _; rfl
  | succ c ih =>
    intro s hpre hbit
    have h0 := hpre 0 (Nat.succ_pos c)
    rw [Nat.add_zero] at h0
    simp only [update_poll, regmap_read, h0.1, h0.2]
    have hrec := ih { s with idx := s.idx + 1 }
        (fun k hk => by
          have := hpre (k + 1) (Nat.succ_lt_succ hk)
          simpa [Nat.add_assoc, Nat.add_comm, Nat.add_left_comm] using this)
        hbit
    simp only [Bool.and_true, Bool.and_false]
    rw [if_neg (by simpa using hbit)]
    rw [hrec]
    simp [Nat.add_assoc, Nat.add_comm, Nat.add_left_comm]

/-- C3: once the update bit has been set successfully, update_config
performs at most 500 polls of the command register (at most 501 register
accesses in total); if some poll within the bound observes the update
bit clear it returns 0 right there, performing none of the remaining
iterations and emitting no diagnostic; if all 500 polls still see the
bit set it emits exactly one diagnostic and nevertheless returns 0. -/
theorem C3_update_config_poll_policy (s : Mmio) (hset : s.fail s.idx = none) :
    ((update_config s).2.idx ≤ s.idx + 501) ∧
    (∀ j, j < 500 →
      (∀ k, k < j → s.fail (s.idx + 1 + k) = none ∧ s.hw (s.idx + 1 + k) = false) →
      s.fail (s.idx + 1 + j) = none → s.hw (s.idx + 1 + j) = true →
      (update_config s).1 = 0 ∧ (update_config s).2.warns = s.warns ∧
        (update_config s).2.idx = s.idx + 2 + j) ∧
    ((∀ k, k < 500 → s.fail (s.idx + 1 + k) = none ∧ s.hw (s.idx + 1 + k) = false) →
      (update_config s).1 = 0 ∧ (update_config s).2.warns = s.warns + 1 ∧
        (update_config s).2.idx = s.idx + 501) := by
  have hred : update_config s = update_poll
      { s with
          regs := s.regs.set CMD_REG
            (s.regs.get CMD_REG &&& compl32 CMD_UPDATE |||
              CMD_UPDATE &&& (CMD_UPDATE &&& U32MASK))
          idx := s.idx + 1
          writes := s.writes ++ [(CMD_REG, CMD_UPDATE, CMD_UPDATE)] } 500 := by
    simp only [update_config, regmap_update_bits, hset]
  have hb0 : (s.regs.cmd &&& compl32 CMD_UPDATE ||| 1) &&& CMD_UPDATE ≠ 0 := by
    rw [show CMD_UPDATE = 1 from rfl, or_one_and_one]
    exact one_ne_zero
  have hbit : (RegFile.set s.regs CMD_REG
      (s.regs.get CMD_REG &&& compl32 CMD_UPDATE |||
        CMD_UPDATE &&& (CMD_UPDATE &&& U32MASK))).get CMD_REG &&& CMD_UPDATE ≠ 0 := by
    have h1 : CMD_UPDATE &&& (CMD_UPDATE &&& U32MASK) = 1 := by decide
    simpa [RegFile.get, RegFile.set, CMD_REG, CFG_REG, M_REG, N_REG, D_REG, h1]
      using hb0
  refine ⟨?_, ?_, ?_⟩
  · rw [hred]
    have h := update_poll_idx_le 500
        { s with
            regs := s.regs.set CMD_REG
              (s.regs.get CMD_REG &&& compl32 CMD_UPDATE |||
                CMD_UPDATE &&& (CMD_UPDATE &&& U32MASK))
            idx := s.idx + 1
            writes := s.writes ++ [(CMD_REG, CMD_UPDATE, CMD_UPDATE)] }
    simp only at h
    omega
  · intro j hj hpre hfj hwj
    rw [hred]
    rw [update_poll_early j 500 _ hj
        (fun k hk => hpre k hk) (by simpa using hfj) (by simpa using hwj) hbit]
    refine ⟨rfl, rfl, ?_⟩
    show s.idx + 1 + j + 1 = s.idx + 2 + j
    omega
  · intro hpre
    rw [hred]
    rw [update_poll_exhaust 500 _ (fun k hk => hpre k hk) hbit]
    refine ⟨rfl, rfl, ?_⟩
    show s.idx + 1 + 500 = s.idx + 501
    omega

theorem C3_witness :
    (update_config ⟨⟨1, 0, 0, 0, 0⟩, fun _ => none, fun k => 3 ≤ k, 0, [], 0⟩).1
        = 0 ∧
      (update_config ⟨⟨1, 0, 0, 0, 0⟩, fun _ => none, fun k => 3 ≤ k, 0, [], 0⟩).2.warns
        = 0 ∧
      (update_config ⟨⟨1, 0, 0, 0, 0⟩, fun _ => none, fun k => 3 ≤ k, 0, [], 0⟩).2.idx
        = 4 := by
  have h := (C3_update_config_poll_policy
      ⟨⟨1, 0, 0, 0, 0⟩, fun _ => none, fun k => 3 ≤ k, 0, [], 0⟩ rfl).2.1 2
      (by decide) (by decide) rfl (by decide)
  exact h

/-- C8: when the lookup succeeds with entry f, _freq_tbl_determine_rate
negotiates f.freq and reports the parent source f.src; with parent-rate
propagation permitted the parent rate is obtained by inverting the
scaling (rate / 2 * (pre_div + 1) when pre_div is nonzero, then
* n / m through the 64-bit intermediate when n is nonzero), pinned in
all four pre_div/n quadrants; without propagation it is the current
rate of the parent at index f.src; when the lookup fails the operation
fails with -EINVAL. -/
theorem C8_determine_rate_spec (tbl : Option (List Freq)) (rate : Nat)
    (pr : Nat → Nat) :
    (∀ f srp, find_freq tbl rate = some f →
      ∃ p, _freq_tbl_determine_rate tbl rate srp pr = .ok (f.freq, p, f.src)) ∧
    (∀ f, find_freq tbl rate = some f → f.pre_div ≠ 0 → f.n ≠ 0 →
      _freq_tbl_determine_rate tbl rate true pr =
        .ok (f.freq, rate / 2 * (f.pre_div + 1) % 2 ^ 64 * f.n % 2 ^ 64 / f.m,
             f.src)) ∧
    (∀ f, find_freq tbl rate = some f → f.pre_div = 0 → f.n = 0 →
      _freq_tbl_determine_rate tbl rate true pr = .ok (f.freq, rate, f.src)) ∧
    (∀ f, find_freq tbl rate = some f → f.pre_div ≠ 0 → f.n = 0 →
      _freq_tbl_determine_rate tbl rate true pr =
        .ok (f.freq, rate / 2 * (f.pre_div + 1) % 2 ^ 64, f.src)) ∧
    (∀ f, find_freq tbl rate = some f → f.pre_div = 0 → f.n ≠ 0 →
      _freq_tbl_determine_rate tbl rate true pr =
        .ok (f.freq, rate * f.n % 2 ^ 64 / f.m, f.src)) ∧
    (∀ f, find_freq tbl rate = some f →
      _freq_tbl_determine_rate tbl rate false pr =
        .ok (f.freq, pr f.src, f.src)) ∧
    (find_freq tbl rate = none →
      ∀ srp, _freq_tbl_determine_rate tbl rate srp pr = .error (-22)) := by
  refine ⟨?_, ?_, ?_, ?_, ?_, ?_, ?_⟩
  · intro f srp hf
    refine ⟨if srp then
        (let r1 := if f.pre_div ≠ 0 then rate / 2 * (f.pre_div + 1) % 2 ^ 64
                   else rate
         if f.n ≠ 0 then r1 * f.n % 2 ^ 64 / f.m else r1)
      else pr f.src, ?_⟩
    simp only [_freq_tbl_determine_rate, hf]
  · intro f hf h1 h2
    simp [_freq_tbl_determine_rate, hf, h1, h2]
  · intro f hf h1 h2
    simp [_freq_tbl_determine_rate, hf, h1, h2]
  · intro f hf h1 h2
    simp [_freq_tbl_determine_rate, hf, h1, h2]
  · intro f hf h1 h2
    simp [_freq_tbl_determine_rate, hf, h1, h2]
  · intro f hf
    simp [_freq_tbl_determine_rate, hf]
  · intro hf srp
    simp [_freq_tbl_determine_rate, hf]

theorem C8_witness :
    _freq_tbl_determine_rate (some [Freq.mk 200 1 3 1 2, Freq.mk 0 0 0 0 0]) 200
        true (fun _ => 7) = .ok (200, 800, 1) := by
  have h := (C8_determine_rate_spec
      (some [Freq.mk 200 1 3 1 2, Freq.mk 0 0 0 0 0]) 200 (fun _ => 7)).2.1
      (Freq.mk 200 1 3 1 2) rfl (by decide) (by decide)
  exact h.trans (by rfl)

/- Lemmas about the get_parent scan. -/

theorem parent_scan_found (pm : Nat → Nat) (sel : Nat) :
    ∀ rem j i, j < rem → pm (i + j) = sel → (∀ k, k < j → pm (i + k) ≠ sel) →
      parent_scan pm sel rem i = some (i + j) := by
  intro rem
  induction rem with
  | zero => intro j i hj; exact absurd hj (Nat.not_lt_zero j)
  | succ r ih =>
    intro j i hj hsel hleast
    cases j with
    | zero =>
      rw [Nat.add_zero] at hsel
      simp [parent_scan, hsel]
    | succ j2 =>
      have h0 : pm i ≠ sel := by
        have := hleast 0 (Nat.succ_pos j2)
        simpa using this
      have hrec := ih j2 (i + 1) (Nat.lt_of_succ_lt_succ hj)
          (by simpa [Nat.add_assoc, Nat.add_comm, Nat.add_left_comm] using hsel)
          (fun k hk => by
            have := hleast (k + 1) (Nat.succ_lt_succ hk)
            simpa [Nat.add_assoc, Nat.add_comm, Nat.add_left_comm] using this)
      simp only [parent_scan, h0, if_neg, ite_false]
      rw [hrec]
      congr 1
      omega

theorem parent_scan_notfound (pm : Nat → Nat) (sel : Nat) :
    ∀ rem i, (∀ k, k < rem → pm (i + k) ≠ sel) → parent_scan pm sel rem i = none := by
  intro rem
  induction rem with
  | zero => intro i _; rfl
  | succ r ih =>
    intro i hall
    have h0 : pm i ≠ sel := by
      have := hall 0 (Nat.succ_pos r)
      simpa using this
    simp only [parent_scan, h0, if_neg, ite_false]
    exact ih (i + 1) (fun k hk => by
      have := hall (k + 1) (Nat.succ_lt_succ hk)
      simpa [Nat.add_assoc, Nat.add_comm, Nat.add_left_comm] using this)

/-- C9: on a successful config-register read, clk_rcg2_get_parent
returns the least index below num_parents whose parent_map entry equals
the extracted select field; when no index matches it returns the u8
truncation of -EINVAL (234), which is not a valid parent index whenever
num_parents is at most 234. -/
theorem C9_get_parent_reverse_map (np : Nat) (pm : Nat → Nat) (s : Mmio)
    (hread : s.fail s.idx = none) (hnp : np ≤ 234) :
    (∀ j, j < np → pm j = cfg_src_sel (s.regs.get CFG_REG) →
      (∀ k, k < j → pm k ≠ cfg_src_sel (s.regs.get CFG_REG)) →
      (clk_rcg2_get_parent np pm s).1 = j) ∧
    ((∀ j, j < np → pm j ≠ cfg_src_sel (s.regs.get CFG_REG)) →
      (clk_rcg2_get_parent np pm s).1 = 234 ∧
        np ≤ (clk_rcg2_get_parent np pm s).1) := by
  have hred : ∀ r : Option Nat,
      parent_scan pm (cfg_src_sel (s.regs.get CFG_REG)) np 0 = r →
      (clk_rcg2_get_parent np pm s).1 =
        (match r with
         | some i => i % 256
         | none => 234) := by
    intro r hr
    simp only [clk_rcg2_get_parent, regmap_read, hread]
    norm_num
    rw [if_neg (fun h => absurd h.1 (by decide))]
    rw [hr]
    cases r with
    | some i => rfl
    | none => rfl
  refine ⟨?_, ?_⟩
  · intro j hj hsel hleast
    have hscan := parent_scan_found pm (cfg_src_sel (s.regs.get CFG_REG)) np j 0
        hj (by simpa using hsel) (fun k hk => by simpa using hleast k hk)
    have h := hred (some j) (by rw [hscan, Nat.zero_add])
    rw [h]
    show j % 256 = j
    exact Nat.mod_eq_of_lt (by omega)
  · intro hall
    have hscan := parent_scan_notfound pm (cfg_src_sel (s.regs.get CFG_REG)) np 0
        (fun k hk => by simpa using hall k hk)
    have h := hred none hscan
    rw [h]
    refine ⟨rfl, ?_⟩
    show np ≤ 234
    omega

theorem C9_witness :
    (clk_rcg2_get_parent 2 (fun i => if i = 1 then 5 else 3)
      ⟨⟨0, 5 <<< 8, 0, 0, 0⟩, fun _ => none, fun _ => false, 0, [], 0⟩).1 = 1 := by
  have h := (C9_get_parent_reverse_map 2 (fun i => if i = 1 then 5 else 3)
      ⟨⟨0, 5 <<< 8, 0, 0, 0⟩, fun _ => none, fun _ => false, 0, [], 0⟩
      rfl (by decide)).1 1 (by decide) (by decide) (by decide)
  exact h

/- Preservation lemmas: the config write and commit never touch the
M/N/D registers, and the commit never touches the config register. -/

theorem update_config_preserves (s : Mmio) :
    (update_config s).2.regs.cfg = s.regs.cfg ∧
    (update_config s).2.regs.mreg = s.regs.mreg ∧
    (update_config s).2.regs.nreg = s.regs.nreg ∧
    (update_config s).2.regs.dreg = s.regs.dreg ∧
    ∃ t, (update_config s).2.writes = s.writes ++ t := by
  simp only [update_config, regmap_update_bits]
  match h1 : s.fail s.idx with
  | some e => exact ⟨rfl, rfl, rfl, rfl, [], by simp⟩
  | none =>
    simp only
    have hp := update_poll_regs 500
        { s with
            regs := s.regs.set CMD_REG
              (s.regs.get CMD_REG &&& compl32 CMD_UPDATE |||
                CMD_UPDATE &&& (CMD_UPDATE &&& U32MASK))
            idx := s.idx + 1
            writes := s.writes ++ [(CMD_REG, CMD_UPDATE, CMD_UPDATE)] }
    rw [hp.1]
    refine ⟨?_, ?_, ?_, ?_, [(CMD_REG, CMD_UPDATE, CMD_UPDATE)], by rw [hp.2]⟩ <;>
      simp [RegFile.set, CMD_REG, CFG_REG, M_REG, N_REG, D_REG]

theorem update_config_ok (s : Mmio) (hok : ∀ k, s.fail k = none) :
    (update_config s).1 = 0 := by
  simp only [update_config, regmap_update_bits, hok s.idx]
  exact update_poll_ok 500 _ hok

theorem set_rate_cfg_preserves (rcg : Rcg) (f : Freq) (s : Mmio) :
    (set_rate_cfg rcg f s).2.regs.mreg = s.regs.mreg ∧
    (set_rate_cfg rcg f s).2.regs.nreg = s.regs.nreg ∧
    (set_rate_cfg rcg f s).2.regs.dreg = s.regs.dreg ∧
    ∃ t, (set_rate_cfg rcg f s).2.writes = s.writes ++ t := by
  simp only [set_rate_cfg, regmap_update_bits]
  match h1 : s.fail s.idx with
  | some e => exact ⟨rfl, rfl, rfl, [], by simp⟩
  | none =>
    simp only
    have hu := update_config_preserves
        { s with
            regs := s.regs.set CFG_REG
              (s.regs.get CFG_REG &&&
                  compl32 ((2 ^ rcg.hid_width - 1) |||
                    CFG_SRC_SEL_MASK ||| CFG_MODE_MASK) |||
                (f.pre_div <<< CFG_SRC_DIV_SHIFT |||
                    rcg.parent_map.getD f.src 0 <<< CFG_SRC_SEL_SHIFT |||
                    (if rcg.mnd_width ≠ 0 ∧ f.n ≠ 0 then CFG_MODE_DUAL_EDGE
                     else 0)) &&&
                  (((2 ^ rcg.hid_width - 1) |||
                      CFG_SRC_SEL_MASK ||| CFG_MODE_MASK) &&& U32MASK))
            idx := s.idx + 1
            writes := s.writes ++
              [(CFG_REG,
                (2 ^ rcg.hid_width - 1) ||| CFG_SRC_SEL_MASK ||| CFG_MODE_MASK,
                f.pre_div <<< CFG_SRC_DIV_SHIFT |||
                  rcg.parent_map.getD f.src 0 <<< CFG_SRC_SEL_SHIFT |||
                  (if rcg.mnd_width ≠ 0 ∧ f.n ≠ 0 then CFG_MODE_DUAL_EDGE
                   else 0))] }
    obtain ⟨-, hm, hn, hd, t, ht⟩ := hu
    rw [hm, hn, hd]
    refine ⟨?_, ?_, ?_, ?_⟩
    · simp [RegFile.set, CMD_REG, CFG_REG, M_REG, N_REG, D_REG]
    · simp [RegFile.set, CMD_REG, CFG_REG, M_REG, N_REG, D_REG]
    · simp [RegFile.set, CMD_REG, CFG_REG, M_REG, N_REG, D_REG]
    · exact ⟨_, by rw [ht, List.append_assoc]⟩

/- Reduction lemmas for the M/N/D block. -/

theorem set_rate_mnd_fail_m (mask : Nat) (f : Freq) (s : Mmio) (e : Int)
    (h0 : s.fail s.idx = some e) :
    set_rate_mnd mask f s = (.error e, { s with idx := s.idx + 1 }) := by
  simp only [set_rate_mnd, regmap_update_bits, h0]

theorem set_rate_mnd_fail_n (mask : Nat) (f : Freq) (s : Mmio) (e : Int)
    (h0 : s.fail s.idx = none) (h1 : s.fail (s.idx + 1) = some e) :
    set_rate_mnd mask f s = (.error e,
      { s with
          regs := { s.regs with
            mreg := s.regs.mreg &&& compl32 mask |||
              f.m &&& (mask &&& U32MASK) }
          idx := s.idx + 2
          writes := s.writes ++ [(M_REG, mask, f.m)] }) := by
  simp only [set_rate_mnd, regmap_update_bits, h0, h1]
  simp [RegFile.set, RegFile.get, CMD_REG, CFG_REG, M_REG, N_REG, D_REG,
    Nat.add_assoc]

theorem set_rate_mnd_fail_d (mask : Nat) (f : Freq) (s : Mmio) (e : Int)
    (h0 : s.fail s.idx = none) (h1 : s.fail (s.idx + 1) = none)
    (h2 : s.fail (s.idx + 2) = some e) :
    set_rate_mnd mask f s = (.error e,
      { s with
          regs := { s.regs with
            mreg := s.regs.mreg &&& compl32 mask |||
              f.m &&& (mask &&& U32MASK)
            nreg := s.regs.nreg &&& compl32 mask |||
              compl32 (sub32 f.n f.m) &&& (mask &&& U32MASK) }
          idx := s.idx + 3
          writes := s.writes ++
            [(M_REG, mask, f.m),
             (N_REG, mask, compl32 (sub32 f.n f.m))] }) := by
  simp only [set_rate_mnd, regmap_update_bits, h0, h1]
  simp only [RegFile.set, RegFile.get, CMD_REG, CFG_REG, M_REG, N_REG, D_REG]
  norm_num
  simp only [Nat.add_assoc]
  norm_num [h2]

theorem set_rate_mnd_success (mask : Nat) (f : Freq) (s : Mmio)
    (h0 : s.fail s.idx = none) (h1 : s.fail (s.idx + 1) = none)
    (h2 : s.fail (s.idx + 2) = none) :
    set_rate_mnd mask f s = (.ok (),
      { s with
          regs := { s.regs with
            mreg := s.regs.mreg &&& compl32 mask |||
              f.m &&& (mask &&& U32MASK)
            nreg := s.regs.nreg &&& compl32 mask |||
              compl32 (sub32 f.n f.m) &&& (mask &&& U32MASK)
            dreg := s.regs.dreg &&& compl32 mask |||
              compl32 f.n &&& (mask &&& U32MASK) }
          idx := s.idx + 3
          writes := s.writes ++
            [(M_REG, mask, f.m),
             (N_REG, mask, compl32 (sub32 f.n f.m)),
             (D_REG, mask, compl32 f.n)] }) := by
  simp only [set_rate_mnd, regmap_update_bits, h0, h1]
  simp only [RegFile.set, RegFile.get, CMD_REG, CFG_REG, M_REG, N_REG, D_REG]
  norm_num
  simp only [Nat.add_assoc]
  norm_num [h2]
  try simp [RegFile.set, RegFile.get, CMD_REG, CFG_REG, M_REG, N_REG, D_REG]

/-- C5: with mnd_width > 0 and a matched entry in fractional mode
(nonzero divisor n), the rate programming writes f.m, then the u32
complement of (f.n - f.m), then the u32 complement of f.n, masked to
the M/N width, into the M, N and D registers in that order; a failing
write aborts the sequence at once, propagating the error with no later
register access performed. -/
theorem C5_mnd_sequence_and_abort (rcg : Rcg) (rate : Nat) (s : Mmio) (f : Freq)
    (hf : find_freq rcg.freq_tbl rate = some f)
    (hm : rcg.mnd_width ≠ 0) (hn : f.n ≠ 0) (hw32 : rcg.mnd_width ≤ 32) :
    (∀ e, s.fail s.idx = some e →
      __clk_rcg2_set_rate rcg rate s = (e, { s with idx := s.idx + 1 })) ∧
    (∀ e, s.fail s.idx = none → s.fail (s.idx + 1) = some e →
      __clk_rcg2_set_rate rcg rate s = (e,
        { s with
            regs := { s.regs with
              mreg := s.regs.mreg &&& compl32 (2 ^ rcg.mnd_width - 1) |||
                f.m &&& (2 ^ rcg.mnd_width - 1) }
            idx := s.idx + 2
            writes := s.writes ++ [(M_REG, 2 ^ rcg.mnd_width - 1, f.m)] })) ∧
    (∀ e, s.fail s.idx = none → s.fail (s.idx + 1) = none →
        s.fail (s.idx + 2) = some e →
      __clk_rcg2_set_rate rcg rate s = (e,
        { s with
            regs := { s.regs with
              mreg := s.regs.mreg &&& compl32 (2 ^ rcg.mnd_width - 1) |||
                f.m &&& (2 ^ rcg.mnd_width - 1)
              nreg := s.regs.nreg &&& compl32 (2 ^ rcg.mnd_width - 1) |||
                compl32 (sub32 f.n f.m) &&& (2 ^ rcg.mnd_width - 1) }
            idx := s.idx + 3
            writes := s.writes ++
              [(M_REG, 2 ^ rcg.mnd_width - 1, f.m),
               (N_REG, 2 ^ rcg.mnd_width - 1, compl32 (sub32 f.n f.m))] })) ∧
    (s.fail s.idx = none → s.fail (s.idx + 1) = none →
        s.fail (s.idx + 2) = none →
      (__clk_rcg2_set_rate rcg rate s).2.regs.mreg =
        (s.regs.mreg &&& compl32 (2 ^ rcg.mnd_width - 1) |||
          f.m &&& (2 ^ rcg.mnd_width - 1)) ∧
      (__clk_rcg2_set_rate rcg rate s).2.regs.nreg =
        (s.regs.nreg &&& compl32 (2 ^ rcg.mnd_width - 1) |||
          compl32 (sub32 f.n f.m) &&& (2 ^ rcg.mnd_width - 1)) ∧
      (__clk_rcg2_set_rate rcg rate s).2.regs.dreg =
        (s.regs.dreg &&& compl32 (2 ^ rcg.mnd_width - 1) |||
          compl32 f.n &&& (2 ^ rcg.mnd_width - 1)) ∧
      ∃ t, (__clk_rcg2_set_rate rcg rate s).2.writes = s.writes ++
        [(M_REG, 2 ^ rcg.mnd_width - 1, f.m),
         (N_REG, 2 ^ rcg.mnd_width - 1, compl32 (sub32 f.n f.m)),
         (D_REG, 2 ^ rcg.mnd_width - 1, compl32 f.n)] ++ t) := by
  have hmaskle : 2 ^ rcg.mnd_width - 1 < 2 ^ 32 :=
    Nat.lt_of_lt_of_le (Nat.sub_lt (Nat.pow_pos (by norm_num)) Nat.one_pos)
      (Nat.pow_le_pow_right (by norm_num) hw32)
  have hmask : 2 ^ rcg.mnd_width - 1 &&& U32MASK = 2 ^ rcg.mnd_width - 1 := by
    rw [show U32MASK = 2 ^ 32 - 1 from rfl]
    exact Nat.and_pow_two_sub_one_of_lt_two_pow hmaskle
  have hred : __clk_rcg2_set_rate rcg rate s =
      (match set_rate_mnd (2 ^ rcg.mnd_width - 1) f s with
       | (.error e, s1) => (e, s1)
       | (.ok _, s1) => set_rate_cfg rcg f s1) := by
    simp only [__clk_rcg2_set_rate, hf]
    rw [if_pos ⟨hm, hn⟩]
  refine ⟨?_, ?_, ?_, ?_⟩
  · intro e h0
    rw [hred, set_rate_mnd_fail_m _ f s e h0]
  · intro e h0 h1
    rw [hred, set_rate_mnd_fail_n _ f s e h0 h1, hmask]
  · intro e h0 h1 h2
    rw [hred, set_rate_mnd_fail_d _ f s e h0 h1 h2, hmask]
  · intro h0 h1 h2
    have hred4 : __clk_rcg2_set_rate rcg rate s = set_rate_cfg rcg f
        { s with
            regs := { s.regs with
              mreg := s.regs.mreg &&& compl32 (2 ^ rcg.mnd_width - 1) |||
                f.m &&& (2 ^ rcg.mnd_width - 1 &&& U32MASK)
              nreg := s.regs.nreg &&& compl32 (2 ^ rcg.mnd_width - 1) |||
                compl32 (sub32 f.n f.m) &&& (2 ^ rcg.mnd_width - 1 &&& U32MASK)
              dreg := s.regs.dreg &&& compl32 (2 ^ rcg.mnd_width - 1) |||
                compl32 f.n &&& (2 ^ rcg.mnd_width - 1 &&& U32MASK) }
            idx := s.idx + 3
            writes := s.writes ++
              [(M_REG, 2 ^ rcg.mnd_width - 1, f.m),
               (N_REG, 2 ^ rcg.mnd_width - 1, compl32 (sub32 f.n f.m)),
               (D_REG, 2 ^ rcg.mnd_width - 1, compl32 f.n)] } := by
      rw [hred, set_rate_mnd_success _ f s h0 h1 h2]
    rw [hred4]
    obtain ⟨hm1, hn1, hd1, t, ht⟩ := set_rate_cfg_preserves rcg f _
    rw [hm1, hn1, hd1, ht]
    refine ⟨by rw [hmask], by rw [hmask], by rw [hmask], t, by simp⟩

theorem C5_witness :
    (__clk_rcg2_set_rate ⟨8, 5, [0], some [Freq.mk 100 0 1 1 3, Freq.mk 0 0 0 0 0]⟩
        100
        ⟨⟨0, 0, 0, 0, 0⟩, fun k => if k = 1 then some (-5) else none,
          fun _ => false, 0, [], 0⟩).1 = -5 ∧
    (__clk_rcg2_set_rate ⟨8, 5, [0], some [Freq.mk 100 0 1 1 3, Freq.mk 0 0 0 0 0]⟩
        100
        ⟨⟨0, 0, 0, 0, 0⟩, fun k => if k = 1 then some (-5) else none,
          fun _ => false, 0, [], 0⟩).2.writes = [(M_REG, 255, 1)] := by
  have h := (C5_mnd_sequence_and_abort
      ⟨8, 5, [0], some [Freq.mk 100 0 1 1 3, Freq.mk 0 0 0 0 0]⟩ 100
      ⟨⟨0, 0, 0, 0, 0⟩, fun k => if k = 1 then some (-5) else none,
        fun _ => false, 0, [], 0⟩
      (Freq.mk 100 0 1 1 3) rfl (by decide) (by decide) (by decide)).2.1
      (-5) rfl rfl
  rw [h]
  exact ⟨rfl, by decide⟩

/- ----------------------------------------------------------------- -/
/- Bit-level analysis of the combined config value.                  -/
/- ----------------------------------------------------------------- -/

/-- The value regmap_update_bits leaves in the config register after
the masked write of set_rate_cfg: old bits outside the union mask, the
combined divider / select / mode value inside it. -/
def cfg_merge (h old pre pmv md : Nat) : Nat :=
  old &&& compl32 (2 ^ h - 1 ||| CFG_SRC_SEL_MASK ||| CFG_MODE_MASK) |||
    (pre <<< CFG_SRC_DIV_SHIFT ||| pmv <<< CFG_SRC_SEL_SHIFT ||| md) &&&
      ((2 ^ h - 1 ||| CFG_SRC_SEL_MASK ||| CFG_MODE_MASK) &&& U32MASK)

theorem merge_and_field {old v mask fieldm : Nat}
    (hU : mask &&& U32MASK = mask)
    (h1 : compl32 mask &&& fieldm = 0) (h2 : mask &&& fieldm = fieldm) :
    (old &&& compl32 mask ||| v &&& (mask &&& U32MASK)) &&& fieldm =
      v &&& fieldm := by
  rw [hU, land_lor_right]
  rw [Nat.and_assoc old, h1, Nat.and_zero, Nat.zero_or, Nat.and_assoc, h2]

theorem merge_and_compl {old v mask : Nat}
    (hU : mask &&& U32MASK = mask) (h0 : mask &&& compl32 mask = 0) :
    (old &&& compl32 mask ||| v &&& (mask &&& U32MASK)) &&& compl32 mask =
      old &&& compl32 mask := by
  rw [hU, land_lor_right]
  rw [Nat.and_assoc v, h0, Nat.and_zero, Nat.or_zero, Nat.and_assoc,
    Nat.and_self]

theorem cfg_merge_fields (h old pre pmv md : Nat)
    (hpre : pre < 2 ^ h) (hpm : pmv < 8) (hh : h ≤ 8)
    (hmd : md = CFG_MODE_DUAL_EDGE ∨ md = 0) :
    cfg_hid_div h (cfg_merge h old pre pmv md) = pre ∧
    cfg_src_sel (cfg_merge h old pre pmv md) = pmv ∧
    cfg_mode (cfg_merge h old pre pmv md) = md >>> CFG_MODE_SHIFT ∧
    cfg_merge h old pre pmv md &&&
        compl32 (2 ^ h - 1 ||| CFG_SRC_SEL_MASK ||| CFG_MODE_MASK) =
      old &&& compl32 (2 ^ h - 1 ||| CFG_SRC_SEL_MASK ||| CFG_MODE_MASK) := by
  have h8 : (2 : Nat) ^ h ≤ 2 ^ 8 := Nat.pow_le_pow_right (by norm_num) hh
  have hp : (0 : Nat) < 2 ^ h := Nat.pow_pos (by norm_num)
  have hm8 : 2 ^ h - 1 < 2 ^ 8 := by omega
  have hm32 : 2 ^ h - 1 < 2 ^ 32 := lt_trans hm8 (by norm_num)
  have hpre8 : pre < 2 ^ 8 := lt_of_lt_of_le hpre h8
  have hmask32 : 2 ^ h - 1 &&& U32MASK = 2 ^ h - 1 :=
    Nat.and_pow_two_sub_one_of_lt_two_pow hm32
  have hsel32 : CFG_SRC_SEL_MASK &&& U32MASK = CFG_SRC_SEL_MASK := by decide
  have hmode32 : CFG_MODE_MASK &&& U32MASK = CFG_MODE_MASK := by decide
  have hU : (2 ^ h - 1 ||| CFG_SRC_SEL_MASK ||| CFG_MODE_MASK) &&& U32MASK =
      2 ^ h - 1 ||| CFG_SRC_SEL_MASK ||| CFG_MODE_MASK := by
    rw [land_lor_right, land_lor_right, hmask32, hsel32, hmode32]
  have hmasklt : 2 ^ h - 1 ||| CFG_SRC_SEL_MASK ||| CFG_MODE_MASK < 2 ^ 32 :=
    Nat.or_lt_two_pow (Nat.or_lt_two_pow hm32 (by decide)) (by decide)
  -- cross terms with the divider field
  have hselh : CFG_SRC_SEL_MASK &&& (2 ^ h - 1) = 0 := by
    rw [Nat.and_comm]
    exact and_eq_zero_of_lt 8 hm8 (by decide)
  have hmodeh : CFG_MODE_MASK &&& (2 ^ h - 1) = 0 := by
    rw [Nat.and_comm]
    exact and_eq_zero_of_lt 8 hm8 (by decide)
  -- mask absorption of each field
  have hF2a : (2 ^ h - 1 ||| CFG_SRC_SEL_MASK ||| CFG_MODE_MASK) &&& (2 ^ h - 1) =
      2 ^ h - 1 := by
    rw [land_lor_right, land_lor_right, Nat.and_self, hselh, hmodeh,
      Nat.or_zero, Nat.or_zero]
  have hselh2 : 2 ^ h - 1 &&& CFG_SRC_SEL_MASK = 0 := by
    rw [Nat.and_comm]; exact hselh
  have hmodeh2 : 2 ^ h - 1 &&& CFG_MODE_MASK = 0 := by
    rw [Nat.and_comm]; exact hmodeh
  have hF2b : (2 ^ h - 1 ||| CFG_SRC_SEL_MASK ||| CFG_MODE_MASK) &&&
      CFG_SRC_SEL_MASK = CFG_SRC_SEL_MASK := by
    rw [land_lor_right, land_lor_right, Nat.and_self]
    rw [hselh2, Nat.zero_or,
      show CFG_MODE_MASK &&& CFG_SRC_SEL_MASK = 0 by decide, Nat.or_zero]
  have hF2c : (2 ^ h - 1 ||| CFG_SRC_SEL_MASK ||| CFG_MODE_MASK) &&&
      CFG_MODE_MASK = CFG_MODE_MASK := by
    rw [land_lor_right, land_lor_right, Nat.and_self]
    rw [hmodeh2, Nat.zero_or,
      show CFG_SRC_SEL_MASK &&& CFG_MODE_MASK = 0 by decide, Nat.zero_or]
  -- the complement mask kills every field
  have hF3a : compl32 (2 ^ h - 1 ||| CFG_SRC_SEL_MASK ||| CFG_MODE_MASK) &&&
      (2 ^ h - 1) = 0 := compl32_and_eq_zero hm32 hF2a
  have hF3b : compl32 (2 ^ h - 1 ||| CFG_SRC_SEL_MASK ||| CFG_MODE_MASK) &&&
      CFG_SRC_SEL_MASK = 0 := compl32_and_eq_zero (by decide) hF2b
  have hF3c : compl32 (2 ^ h - 1 ||| CFG_SRC_SEL_MASK ||| CFG_MODE_MASK) &&&
      CFG_MODE_MASK = 0 := compl32_and_eq_zero (by decide) hF2c
  have hF3d : (2 ^ h - 1 ||| CFG_SRC_SEL_MASK ||| CFG_MODE_MASK) &&&
      compl32 (2 ^ h - 1 ||| CFG_SRC_SEL_MASK ||| CFG_MODE_MASK) = 0 := by
    rw [Nat.and_comm]
    exact compl32_and_eq_zero hmasklt (Nat.and_self _)
  -- the combined value against each field
  have hvh : (pre <<< CFG_SRC_DIV_SHIFT ||| pmv <<< CFG_SRC_SEL_SHIFT ||| md) &&&
      (2 ^ h - 1) = pre := by
    rw [land_lor_right, land_lor_right]
    rw [show CFG_SRC_DIV_SHIFT = 0 from rfl, Nat.shiftLeft_zero]
    rw [Nat.and_pow_two_sub_one_of_lt_two_pow hpre]
    have h1 : pmv <<< CFG_SRC_SEL_SHIFT &&& (2 ^ h - 1) = 0 := by
      rw [Nat.and_pow_two_sub_one_eq_mod, Nat.shiftLeft_eq]
      exact Nat.mod_eq_zero_of_dvd
        (Dvd.dvd.mul_left (Nat.pow_dvd_pow 2 hh) pmv)
    have h2 : md &&& (2 ^ h - 1) = 0 := by
      rcases hmd with hmd | hmd
      · subst hmd
        rw [Nat.and_pow_two_sub_one_eq_mod]
        exact Nat.mod_eq_zero_of_dvd
          (dvd_trans (Nat.pow_dvd_pow 2 hh)
            (show (2 : Nat) ^ 8 ∣ CFG_MODE_DUAL_EDGE by decide))
      · subst hmd
        exact Nat.zero_and _
    rw [h1, h2, Nat.or_zero, Nat.or_zero]
  have hvsel : (pre <<< CFG_SRC_DIV_SHIFT ||| pmv <<< CFG_SRC_SEL_SHIFT ||| md) &&&
      CFG_SRC_SEL_MASK = pmv <<< CFG_SRC_SEL_SHIFT := by
    rw [land_lor_right, land_lor_right]
    rw [show CFG_SRC_DIV_SHIFT = 0 from rfl, Nat.shiftLeft_zero]
    rw [and_eq_zero_of_lt 8 hpre8 (by decide), Nat.zero_or]
    have h1 : pmv <<< CFG_SRC_SEL_SHIFT &&& CFG_SRC_SEL_MASK =
        pmv <<< CFG_SRC_SEL_SHIFT := by
      rw [show CFG_SRC_SEL_MASK = 7 <<< CFG_SRC_SEL_SHIFT from rfl,
        shiftLeft_land_shiftLeft]
      have h7 : pmv &&& 7 = pmv := by
        have := Nat.and_pow_two_sub_one_of_lt_two_pow
          (x := pmv) (n := 3) (by norm_num at hpm ⊢; omega)
        simpa using this
      rw [h7]
    have h2 : md &&& CFG_SRC_SEL_MASK = 0 := by
      rcases hmd with hmd | hmd <;> subst hmd
      · decide
      · exact Nat.zero_and _
    rw [h1, h2, Nat.or_zero]
  have hvmode : (pre <<< CFG_SRC_DIV_SHIFT ||| pmv <<< CFG_SRC_SEL_SHIFT ||| md) &&&
      CFG_MODE_MASK = md := by
    rw [land_lor_right, land_lor_right]
    rw [show CFG_SRC_DIV_SHIFT = 0 from rfl, Nat.shiftLeft_zero]
    rw [and_eq_zero_of_lt 8 hpre8 (by decide), Nat.zero_or]
    have h1 : pmv <<< CFG_SRC_SEL_SHIFT &&& CFG_MODE_MASK = 0 := by
      refine and_eq_zero_of_lt 12 ?_ (by decide)
      rw [Nat.shiftLeft_eq]
      have : (2 : Nat) ^ CFG_SRC_SEL_SHIFT = 256 := by decide
      rw [this]
      norm_num
      omega
    have h2 : md &&& CFG_MODE_MASK = md := by
      rcases hmd with hmd | hmd <;> subst hmd
      · decide
      · exact Nat.zero_and _
    rw [h1, h2, Nat.zero_or]
  refine ⟨?_, ?_, ?_, ?_⟩
  · show (cfg_merge h old pre pmv md) >>> CFG_SRC_DIV_SHIFT &&& (2 ^ h - 1) = pre
    rw [show CFG_SRC_DIV_SHIFT = 0 from rfl, Nat.shiftRight_zero]
    unfold cfg_merge
    rw [merge_and_field hU hF3a hF2a, hvh]
  · show (cfg_merge h old pre pmv md &&& CFG_SRC_SEL_MASK) >>>
      CFG_SRC_SEL_SHIFT = pmv
    unfold cfg_merge
    rw [merge_and_field hU hF3b hF2b, hvsel, Nat.shiftLeft_shiftRight]
  · show (cfg_merge h old pre pmv md &&& CFG_MODE_MASK) >>> CFG_MODE_SHIFT =
      md >>> CFG_MODE_SHIFT
    unfold cfg_merge
    rw [merge_and_field hU hF3c hF2c, hvmode]
  · unfold cfg_merge
    exact merge_and_compl hU hF3d

theorem set_rate_cfg_run (rcg : Rcg) (f : Freq) (s : Mmio)
    (hok : ∀ k, s.fail k = none) :
    (set_rate_cfg rcg f s).1 = 0 ∧
    (set_rate_cfg rcg f s).2.regs.cfg =
      cfg_merge rcg.hid_width s.regs.cfg f.pre_div
        (rcg.parent_map.getD f.src 0)
        (if rcg.mnd_width ≠ 0 ∧ f.n ≠ 0 then CFG_MODE_DUAL_EDGE else 0) := by
  simp only [set_rate_cfg, regmap_update_bits, hok s.idx]
  constructor
  · exact update_config_ok _ hok
  · rw [(update_config_preserves _).1]
    simp [RegFile.set, RegFile.get, CMD_REG, CFG_REG, M_REG, N_REG, D_REG,
      cfg_merge]

theorem set_rate_cfg_roundtrip (rcg : Rcg) (f : Freq) (s2 : Mmio)
    (hok : ∀ k, s2.fail k = none)
    (hpm : rcg.parent_map.getD f.src 0 < 8)
    (hpre : f.pre_div < 2 ^ rcg.hid_width)
    (hhid : rcg.hid_width ≤ 8) :
    (set_rate_cfg rcg f s2).1 = 0 ∧
    cfg_hid_div rcg.hid_width (set_rate_cfg rcg f s2).2.regs.cfg = f.pre_div ∧
    cfg_src_sel (set_rate_cfg rcg f s2).2.regs.cfg =
      rcg.parent_map.getD f.src 0 ∧
    cfg_mode (set_rate_cfg rcg f s2).2.regs.cfg =
      (if rcg.mnd_width ≠ 0 ∧ f.n ≠ 0 then 2 else 0) ∧
    (set_rate_cfg rcg f s2).2.regs.cfg &&&
        compl32 (2 ^ rcg.hid_width - 1 ||| CFG_SRC_SEL_MASK ||| CFG_MODE_MASK) =
      s2.regs.cfg &&&
        compl32 (2 ^ rcg.hid_width - 1 ||| CFG_SRC_SEL_MASK ||| CFG_MODE_MASK) := by
  obtain ⟨h0, hcfg⟩ := set_rate_cfg_run rcg f s2 hok
  have hmf := cfg_merge_fields rcg.hid_width s2.regs.cfg f.pre_div
      (rcg.parent_map.getD f.src 0)
      (if rcg.mnd_width ≠ 0 ∧ f.n ≠ 0 then CFG_MODE_DUAL_EDGE else 0)
      hpre hpm hhid (by split <;> [exact Or.inl rfl; exact Or.inr rfl])
  rw [hcfg]
  refine ⟨h0, hmf.1, hmf.2.1, ?_, hmf.2.2.2⟩
  rw [hmf.2.2.1]
  split
  · decide
  · decide

/-- C6: programming a rate with a successfully looked-up entry f and no
register-access error succeeds and leaves the config register so that
extracting the fields the way the driver reads them back yields the
divider f.pre_div, the mapped parent-select value, and mode 2
(dual-edge) exactly when fractional mode was requested (mnd_width > 0
and f.n nonzero); config bits outside the union of the divider,
parent-select and mode masks keep their previous values
(read-modify-write). -/
theorem C6_cfg_roundtrip (rcg : Rcg) (rate : Nat) (s : Mmio) (f : Freq)
    (hf : find_freq rcg.freq_tbl rate = some f)
    (hok : ∀ k, s.fail k = none)
    (hsrc : f.src < rcg.parent_map.length)
    (hpm : rcg.parent_map.getD f.src 0 < 8)
    (hpre : f.pre_div < 2 ^ rcg.hid_width)
    (hhid : rcg.hid_width ≤ 8) :
    (__clk_rcg2_set_rate rcg rate s).1 = 0 ∧
    cfg_hid_div rcg.hid_width (__clk_rcg2_set_rate rcg rate s).2.regs.cfg =
      f.pre_div ∧
    cfg_src_sel (__clk_rcg2_set_rate rcg rate s).2.regs.cfg =
      rcg.parent_map.getD f.src 0 ∧
    cfg_mode (__clk_rcg2_set_rate rcg rate s).2.regs.cfg =
      (if rcg.mnd_width ≠ 0 ∧ f.n ≠ 0 then 2 else 0) ∧
    (__clk_rcg2_set_rate rcg rate s).2.regs.cfg &&&
        compl32 (2 ^ rcg.hid_width - 1 ||| CFG_SRC_SEL_MASK ||| CFG_MODE_MASK) =
      s.regs.cfg &&&
        compl32 (2 ^ rcg.hid_width - 1 ||| CFG_SRC_SEL_MASK ||| CFG_MODE_MASK) := by
  by_cases hdual : rcg.mnd_width ≠ 0 ∧ f.n ≠ 0
  · have hred : __clk_rcg2_set_rate rcg rate s = set_rate_cfg rcg f
        { s with
            regs := { s.regs with
              mreg := s.regs.mreg &&& compl32 (2 ^ rcg.mnd_width - 1) |||
                f.m &&& (2 ^ rcg.mnd_width - 1 &&& U32MASK)
              nreg := s.regs.nreg &&& compl32 (2 ^ rcg.mnd_width - 1) |||
                compl32 (sub32 f.n f.m) &&& (2 ^ rcg.mnd_width - 1 &&& U32MASK)
              dreg := s.regs.dreg &&& compl32 (2 ^ rcg.mnd_width - 1) |||
                compl32 f.n &&& (2 ^ rcg.mnd_width - 1 &&& U32MASK) }
            idx := s.idx + 3
            writes := s.writes ++
              [(M_REG, 2 ^ rcg.mnd_width - 1, f.m),
               (N_REG, 2 ^ rcg.mnd_width - 1, compl32 (sub32 f.n f.m)),
               (D_REG, 2 ^ rcg.mnd_width - 1, compl32 f.n)] } := by
      simp only [__clk_rcg2_set_rate, hf]
      rw [if_pos hdual, set_rate_mnd_success _ f s (hok _) (hok _) (hok _)]
    rw [hred]
    exact set_rate_cfg_roundtrip rcg f _ hok hpm hpre hhid
  · have hred : __clk_rcg2_set_rate rcg rate s = set_rate_cfg rcg f s := by
      simp only [__clk_rcg2_set_rate, hf]
      rw [if_neg hdual]
    rw [hred]
    exact set_rate_cfg_roundtrip rcg f s hok hpm hpre hhid

theorem C6_witness :
    cfg_hid_div 5
        (__clk_rcg2_set_rate ⟨8, 5, [3, 5], some [Freq.mk 100 1 2 1 3, Freq.mk 0 0 0 0 0]⟩
          100
          ⟨⟨0, 2 ^ 31, 0, 0, 0⟩, fun _ => none, fun _ => false, 0, [], 0⟩).2.regs.cfg
      = 2 ∧
    cfg_src_sel
        (__clk_rcg2_set_rate ⟨8, 5, [3, 5], some [Freq.mk 100 1 2 1 3, Freq.mk 0 0 0 0 0]⟩
          100
          ⟨⟨0, 2 ^ 31, 0, 0, 0⟩, fun _ => none, fun _ => false, 0, [], 0⟩).2.regs.cfg
      = 5 ∧
    cfg_mode
        (__clk_rcg2_set_rate ⟨8, 5, [3, 5], some [Freq.mk 100 1 2 1 3, Freq.mk 0 0 0 0 0]⟩
          100
          ⟨⟨0, 2 ^ 31, 0, 0, 0⟩, fun _ => none, fun _ => false, 0, [], 0⟩).2.regs.cfg
      = 2 := by
  have h := C6_cfg_roundtrip
      ⟨8, 5, [3, 5], some [Freq.mk 100 1 2 1 3, Freq.mk 0 0 0 0 0]⟩ 100
      ⟨⟨0, 2 ^ 31, 0, 0, 0⟩, fun _ => none, fun _ => false, 0, [], 0⟩
      (Freq.mk 100 1 2 1 3) rfl (fun _ => rfl) (by decide) (by decide)
      (by decide) (by decide)
  exact ⟨h.2.1, h.2.2.1, h.2.2.2.1.trans (by decide)⟩
